import Mathlib

/-!
Shallow embedding of `src/index.ts` of the speech-to-text-service repository:
an Express app with two endpoints, `POST /transcribe` (multer upload →
optional ffmpeg m4a→wav transcoding → GCS upload → Speech-to-Text recognize →
cleanup → JSON transcript) and `POST /speak` (JSON text → Text-to-Speech →
MP3 bytes).

External effects (ffmpeg, storage upload/delete, recognize, synthesize,
fs.unlink) are modelled by an environment that fixes the outcome of each
call; the handlers are pure functions from request and environment to a
trace recording which external calls were made, with which arguments, and
the final HTTP response.
-/

namespace SpeechService

/-- Outcome of one external (remote or subprocess) call: it either resolves
with a value or rejects. -/
inductive ExtCall (α : Type) where
  | ok (val : α)
  | failed
deriving DecidableEq

/- ------------------------------------------------------------------ -/
/- Node.js `path` module (POSIX flavour), as used by the source:
   `path.extname`, `path.parse` (`.dir`, `.name`), `path.join`,
   `path.basename`.                                                    -/
/- ------------------------------------------------------------------ -/

/-- Split a list at the first occurrence of `c`: `l = pre ++ c :: post`. -/
def breakAtFirst (c : Char) : List Char → Option (List Char × List Char)
  | [] => none
  | x :: xs =>
      if x = c then some ([], xs)
      else match breakAtFirst c xs with
        | none => none
        | some (pre, post) => some (x :: pre, post)

/-- Split a list at the last occurrence of `c`: `l = pre ++ c :: post`. -/
def splitAtLast (c : Char) (l : List Char) : Option (List Char × List Char) :=
  match breakAtFirst c l.reverse with
  | none => none
  | some (revPost, revPre) => some (revPre.reverse, revPost.reverse)

/-- Drop trailing path separators, as Node path functions do. -/
def dropTrailingSlashes (l : List Char) : List Char :=
  (l.reverse.dropWhile (fun ch => ch = '/')).reverse

/-- Characters after the last separator (the whole list when there is none). -/
def afterLastSlash (l : List Char) : List Char :=
  match splitAtLast '/' l with
  | none => l
  | some (_, post) => post

/-- `path.basename` (POSIX): the last portion of the path, ignoring
trailing separators; a path made only of separators has basename `"/"`. -/
def posixBasename (p : String) : String :=
  if dropTrailingSlashes p.toList = [] then (if p.toList = [] then "" else "/")
  else String.mk (afterLastSlash (dropTrailingSlashes p.toList))

/-- `path.extname` (POSIX): from the last `.` of the basename to the end;
empty when the basename has no `.` or starts with its only `.`. -/
def posixExtname (p : String) : String :=
  match splitAtLast '.' (afterLastSlash (dropTrailingSlashes p.toList)) with
  | none => ""
  | some (pre, post) => if pre = [] then "" else String.mk ('.' :: post)

/-- `path.parse(p).dir` (POSIX): everything before the last separator of the
trailing-separator-trimmed path (the root `"/"` for root-anchored names). -/
def parseDir (p : String) : String :=
  match splitAtLast '/' (dropTrailingSlashes p.toList) with
  | none => ""
  | some (pre, _) => if pre = [] then "/" else String.mk pre

/-- `path.parse(p).name` (POSIX): the basename without its extension. -/
def parseName (p : String) : String :=
  match splitAtLast '.' (afterLastSlash (dropTrailingSlashes p.toList)) with
  | none => String.mk (afterLastSlash (dropTrailingSlashes p.toList))
  | some (pre, _) =>
      if pre = [] then String.mk (afterLastSlash (dropTrailingSlashes p.toList))
      else String.mk pre

/-- `path.join(a, b)` for two already-normalized segments. -/
def pathJoin (a b : String) : String :=
  if a = "" then b else if b = "" then a else a ++ "/" ++ b

/-- Lower-casing used for `ext.toLowerCase()`. -/
def strToLower (s : String) : String :=
  String.mk (s.toList.map Char.toLower)

/- ------------------------------------------------------------------ -/
/- Recognition response model and transcript extraction                -/
/- ------------------------------------------------------------------ -/

/-- One entry of `result.alternatives`; `transcript` may be absent. -/
structure RecognitionAlternative where
  transcript : Option String
deriving DecidableEq

/-- One entry of `response.results`; `alternatives` may be absent. -/
structure RecognitionResult where
  alternatives : Option (List RecognitionAlternative)
deriving DecidableEq

/-- The recognize response; `results` may be absent. -/
structure RecognizeResponse where
  results : Option (List RecognitionResult)
deriving DecidableEq

/-- `result.alternatives?.[0]?.transcript ?? ''` — optional chaining through
the alternatives array, its first element and its transcript field, with
empty-string default. -/
def topTranscript (r : RecognitionResult) : String :=
  (((r.alternatives.bind List.head?).bind RecognitionAlternative.transcript).getD "")

/-- `response.results?.map(result => result.alternatives?.[0]?.transcript ?? '').join(chr 10) ?? ''`
from the source (line 103). -/
def extractTranscription (resp : RecognizeResponse) : String :=
  ((resp.results.map (fun rs => String.intercalate "\n" (rs.map topTranscript))).getD "")

/-- Modelled from the spec words (for refinement against
`extractTranscription`): for each result, take the transcript of the
alternative at rank 0 if that alternative is present, else the empty
string; join per-result strings with a newline; no results at all gives
the empty string. -/
def specTopTranscript (r : RecognitionResult) : String :=
  match r.alternatives with
  | some (a :: _) => a.transcript.getD ""
  | some [] => ""
  | none => ""

/-- Modelled from the spec words: the whole extraction rule. -/
def specTranscript (resp : RecognizeResponse) : String :=
  match resp.results with
  | some rs => String.intercalate "\n" (rs.map specTopTranscript)
  | none => ""

/- ------------------------------------------------------------------ -/
/- `POST /transcribe`                                                  -/
/- ------------------------------------------------------------------ -/

/-- The multer file object: generated local path and original filename. -/
structure UploadedFile where
  path : String
  originalname : String
deriving DecidableEq

/-- A `/transcribe` request: at most one uploaded file in the `audio` field. -/
structure TranscribeRequest where
  file : Option UploadedFile
deriving DecidableEq

/-- Outcomes of the external calls a `/transcribe` request may make, plus
the configured bucket name and which local unlink callbacks report errors. -/
structure TranscribeEnv where
  bucketName : String
  convertOutcome : ExtCall Unit
  uploadOutcome : ExtCall Unit
  recognizeOutcome : ExtCall RecognizeResponse
  remoteDeleteOutcome : ExtCall Unit
  localUnlinkFails : String → Bool

/-- Body of a `/transcribe` response: `res.send(string)` or
`res.json(\x7b text \x7d)`. -/
inductive TranscribeBody where
  | plain (s : String)
  | jsonText (text : String)
deriving DecidableEq

/-- HTTP status and body of a `/transcribe` response. -/
structure TranscribeResponse where
  status : Nat
  body : TranscribeBody
deriving DecidableEq

/-- Trace of one `/transcribe` request: which external calls ran, with which
arguments, which local paths were passed to `fs.unlink`, which unlink
callbacks logged an error, and the HTTP response. -/
structure TranscribeTrace where
  convertInvoked : Bool
  uploadInvoked : Bool
  uploadPath : Option String
  uploadKey : Option String
  recognizeInvoked : Bool
  recognizeUri : Option String
  recognizeSampleRate : Option Nat
  localUnlinks : List String
  unlinkErrorLogs : List String
  remoteDeleteInvoked : Bool
  response : TranscribeResponse
deriving DecidableEq

/-- The log line emitted by an `fs.unlink` callback when deletion of `p`
fails (source logs only; the failure is otherwise dropped). -/
def unlinkLog (env : TranscribeEnv) (p : String) : List String :=
  if env.localUnlinkFails p then ["Error deleting file: " ++ p] else []

/-- The success value of `convertM4aToWav` (lines 24-40): the wav path is
the input path with its extension replaced by `.wav` in the same directory,
and the reported sample rate is 16000. -/
def convertM4aToWav (inputPath : String) : String × Nat :=
  (pathJoin (parseDir inputPath) (parseName inputPath ++ ".wav"), 16000)

/-- The trace of the early `400` return when `!filePath || !originalName`. -/
def noFileTrace : TranscribeTrace where
  convertInvoked := false
  uploadInvoked := false
  uploadPath := none
  uploadKey := none
  recognizeInvoked := false
  recognizeUri := none
  recognizeSampleRate := none
  localUnlinks := []
  unlinkErrorLogs := []
  remoteDeleteInvoked := false
  response := { status := 400, body := TranscribeBody.plain "No audio file uploaded" }

/-- The try block of the handler from the storage upload on (lines 79-120):
upload the canonical file under its base name, recognize via the bucket URI,
unlink local files, delete the remote object, answer `200` with the
transcript; any rejection is caught and answered `500` "Transcription
failed.". -/
def transcribePipeline (env : TranscribeEnv) (filePath wavPath : String)
    (sampleRate : Nat) (convertInvoked : Bool) : TranscribeTrace :=
  let gcsName := posixBasename wavPath
  let gcsUri := "gs://" ++ env.bucketName ++ "/" ++ gcsName
  match env.uploadOutcome with
  | ExtCall.failed =>
      { convertInvoked, uploadInvoked := true, uploadPath := some wavPath,
        uploadKey := some gcsName, recognizeInvoked := false,
        recognizeUri := none, recognizeSampleRate := none,
        localUnlinks := [], unlinkErrorLogs := [], remoteDeleteInvoked := false,
        response := { status := 500, body := TranscribeBody.plain "Transcription failed." } }
  | ExtCall.ok _ =>
      match env.recognizeOutcome with
      | ExtCall.failed =>
          { convertInvoked, uploadInvoked := true, uploadPath := some wavPath,
            uploadKey := some gcsName, recognizeInvoked := true,
            recognizeUri := some gcsUri, recognizeSampleRate := some sampleRate,
            localUnlinks := [], unlinkErrorLogs := [], remoteDeleteInvoked := false,
            response := { status := 500, body := TranscribeBody.plain "Transcription failed." } }
      | ExtCall.ok resp =>
          let transcription := extractTranscription resp
          let unlinks := (if filePath = wavPath then [] else [filePath]) ++ [wavPath]
          let logs := unlinks.flatMap (unlinkLog env)
          match env.remoteDeleteOutcome with
          | ExtCall.failed =>
              { convertInvoked, uploadInvoked := true, uploadPath := some wavPath,
                uploadKey := some gcsName, recognizeInvoked := true,
                recognizeUri := some gcsUri, recognizeSampleRate := some sampleRate,
                localUnlinks := unlinks, unlinkErrorLogs := logs,
                remoteDeleteInvoked := true,
                response := { status := 500, body := TranscribeBody.plain "Transcription failed." } }
          | ExtCall.ok _ =>
              { convertInvoked, uploadInvoked := true, uploadPath := some wavPath,
                uploadKey := some gcsName, recognizeInvoked := true,
                recognizeUri := some gcsUri, recognizeSampleRate := some sampleRate,
                localUnlinks := unlinks, unlinkErrorLogs := logs,
                remoteDeleteInvoked := true,
                response := { status := 200, body := TranscribeBody.jsonText transcription } }

/-- The whole `/transcribe` handler (lines 42-121). JavaScript falsiness of
`filePath`/`originalName` (absent file or empty-string fields) yields the
`400`; `.m4a` (extension lower-cased) triggers the conversion, whose failure
unlinks the upload and answers `500` "Could not convert m4a to wav";
otherwise the pipeline continues with the unchanged path and the default
sample rate 16000. -/
def transcribeHandler (req : TranscribeRequest) (env : TranscribeEnv) : TranscribeTrace :=
  match req.file with
  | none => noFileTrace
  | some f =>
      if f.path = "" ∨ f.originalname = "" then noFileTrace
      else if strToLower (posixExtname f.originalname) = ".m4a" then
        match env.convertOutcome with
        | ExtCall.failed =>
            { convertInvoked := true, uploadInvoked := false, uploadPath := none,
              uploadKey := none, recognizeInvoked := false, recognizeUri := none,
              recognizeSampleRate := none, localUnlinks := [f.path],
              unlinkErrorLogs := unlinkLog env f.path, remoteDeleteInvoked := false,
              response := { status := 500,
                            body := TranscribeBody.plain "Could not convert m4a to wav" } }
        | ExtCall.ok _ =>
            let r := convertM4aToWav f.path
            transcribePipeline env f.path r.1 r.2 true
      else
        transcribePipeline env f.path f.path 16000 false

/- ------------------------------------------------------------------ -/
/- `POST /speak`                                                       -/
/- ------------------------------------------------------------------ -/

/-- A JavaScript value, as far as the `/speak` handler can observe it:
the destructured `req.body.text`. -/
inductive JsValue where
  | undefined
  | null
  | boolean (b : Bool)
  | number (n : Int)
  | string (s : String)
  | object
  | array
deriving DecidableEq

/-- JavaScript truthiness, the predicate behind `if (!text)`. -/
def jsTruthy : JsValue → Bool
  | JsValue.undefined => false
  | JsValue.null => false
  | JsValue.boolean b => b
  | JsValue.number n => n != 0
  | JsValue.string s => s != ""
  | JsValue.object => true
  | JsValue.array => true

/-- Outcome of the `synthesizeSpeech` call: rejection, or a response whose
`audioContent` is absent (`none`) or a byte buffer. -/
structure SpeakEnv where
  synthOutcome : ExtCall (Option (List Nat))

/-- Body of a `/speak` response: `res.json(\x7b error \x7d)` or raw bytes. -/
inductive SpeakBody where
  | jsonError (error : String)
  | bytes (content : List Nat)
deriving DecidableEq

/-- A `/speak` response: status, the two headers the success branch sets,
and the body. -/
structure SpeakResponse where
  status : Nat
  contentType : Option String
  contentDisposition : Option String
  body : SpeakBody
deriving DecidableEq

/-- Trace of one `/speak` request: whether `synthesizeSpeech` was invoked,
the text it was given, and the HTTP response. -/
structure SpeakTrace where
  synthInvoked : Bool
  synthText : Option JsValue
  response : SpeakResponse
deriving DecidableEq

/-- The `/speak` handler (lines 123-164): falsy `text` answers `400` before
any remote call; a rejected synthesis call answers `500`
"Text-to-Speech failed"; a response with no `audioContent` answers `500`
"Failed to synthesize speech"; otherwise `200` with MP3 headers and the
audio bytes. -/
def speakHandler (text : JsValue) (env : SpeakEnv) : SpeakTrace :=
  if jsTruthy text = false then
    { synthInvoked := false, synthText := none,
      response := { status := 400, contentType := none, contentDisposition := none,
                    body := SpeakBody.jsonError "Missing \"text\" in request body" } }
  else
    match env.synthOutcome with
    | ExtCall.failed =>
        { synthInvoked := true, synthText := some text,
          response := { status := 500, contentType := none, contentDisposition := none,
                        body := SpeakBody.jsonError "Text-to-Speech failed" } }
    | ExtCall.ok none =>
        { synthInvoked := true, synthText := some text,
          response := { status := 500, contentType := none, contentDisposition := none,
                        body := SpeakBody.jsonError "Failed to synthesize speech" } }
    | ExtCall.ok (some audio) =>
        { synthInvoked := true, synthText := some text,
          response := { status := 200, contentType := some "audio/mpeg",
                        contentDisposition := some "attachment; filename=\"speech.mp3\"",
                        body := SpeakBody.bytes audio } }

/- ------------------------------------------------------------------ -/
/- Concrete inputs for witnesses and counterexamples                   -/
/- ------------------------------------------------------------------ -/

/-- A one-result recognize response with transcript "hello world". -/
def respW : RecognizeResponse :=
  { results := some [{ alternatives := some [{ transcript := some "hello world" }] }] }

/-- A non-m4a upload: multer path `uploads/u1`, original name `a.wav`. -/
def fileWavW : UploadedFile := { path := "uploads/u1", originalname := "a.wav" }

/-- An m4a upload with upper-case extension. -/
def fileM4aW : UploadedFile := { path := "uploads/u1", originalname := "rec.M4A" }

/-- Environment in which every external call succeeds but every local
`fs.unlink` callback reports an error. -/
def envAllOkW : TranscribeEnv :=
  { bucketName := "bkt", convertOutcome := ExtCall.ok (),
    uploadOutcome := ExtCall.ok (), recognizeOutcome := ExtCall.ok respW,
    remoteDeleteOutcome := ExtCall.ok (), localUnlinkFails := fun _ => true }

/-- Like `envAllOkW` but the remote object deletion rejects. -/
def envRemoteDelFailW : TranscribeEnv :=
  { envAllOkW with remoteDeleteOutcome := ExtCall.failed }

/-- Like `envAllOkW` but the storage upload rejects. -/
def envUploadFailW : TranscribeEnv :=
  { envAllOkW with uploadOutcome := ExtCall.failed }

/-- Like `envAllOkW` but the recognize call rejects. -/
def envRecFailW : TranscribeEnv :=
  { envAllOkW with recognizeOutcome := ExtCall.failed }

/-- Like `envAllOkW` but the ffmpeg conversion rejects. -/
def envConvFailW : TranscribeEnv :=
  { envAllOkW with convertOutcome := ExtCall.failed }

/-- A synthesis environment returning three audio bytes. -/
def spEnvOkW : SpeakEnv := { synthOutcome := ExtCall.ok (some [7, 8, 9]) }

/- ------------------------------------------------------------------ -/
/- Helper lemmas: splitting lists at a separator                      -/
/- ------------------------------------------------------------------ -/

theorem breakAtFirst_eq_none {c : Char} {l : List Char} (h : c ∉ l) :
    breakAtFirst c l = none := by
  induction l with
  | nil => rfl
  | cons x xs ih =>
      simp only [List.mem_cons, not_or] at h
      simp only [breakAtFirst, if_neg (Ne.symm h.1)]
      rw [ih h.2]

theorem breakAtFirst_append {c : Char} {a b : List Char} (h : c ∉ a) :
    breakAtFirst c (a ++ c :: b) = some (a, b) := by
  induction a with
  | nil => simp [breakAtFirst]
  | cons x xs ih =>
      simp only [List.mem_cons, not_or] at h
      simp only [List.cons_append, breakAtFirst, if_neg (Ne.symm h.1), List.append_eq]
      rw [ih h.2]

theorem breakAtFirst_some {c : Char} {l a b : List Char}
    (h : breakAtFirst c l = some (a, b)) : l = a ++ c :: b ∧ c ∉ a := by
  induction l generalizing a b with
  | nil => simp [breakAtFirst] at h
  | cons x xs ih =>
      by_cases hx : x = c
      · subst hx
        simp [breakAtFirst] at h
        obtain ⟨ha, hb⟩ := h
        subst ha; subst hb
        simp
      · simp only [breakAtFirst, if_neg hx] at h
        rcases hbk : breakAtFirst c xs with _ | ⟨pre, post⟩
        · rw [hbk] at h; simp at h
        · rw [hbk] at h
          simp only [Option.some.injEq, Prod.mk.injEq] at h
          obtain ⟨ha, hb⟩ := h
          subst hb
          obtain ⟨hxs, hnot⟩ := ih hbk
          subst hxs
          constructor
          · rw [← ha]; simp
          · rw [← ha]
            simp only [List.mem_cons, not_or]
            exact ⟨Ne.symm hx, hnot⟩

theorem not_mem_of_breakAtFirst_eq_none {c : Char} {l : List Char}
    (h : breakAtFirst c l = none) : c ∉ l := by
  induction l with
  | nil => simp
  | cons x xs ih =>
      by_cases hx : x = c
      · subst hx; simp [breakAtFirst] at h
      · simp only [breakAtFirst, if_neg hx] at h
        rcases hbk : breakAtFirst c xs with _ | ⟨pre, post⟩
        · simp only [List.mem_cons, not_or]
          exact ⟨Ne.symm hx, ih hbk⟩
        · rw [hbk] at h; simp at h

theorem splitAtLast_eq_none {c : Char} {l : List Char} (h : c ∉ l) :
    splitAtLast c l = none := by
  unfold splitAtLast
  rw [breakAtFirst_eq_none (by simpa using h)]

theorem splitAtLast_append {c : Char} {a b : List Char} (h : c ∉ b) :
    splitAtLast c (a ++ c :: b) = some (a, b) := by
  unfold splitAtLast
  have hrev : (a ++ c :: b).reverse = b.reverse ++ c :: a.reverse := by
    simp
  rw [hrev, breakAtFirst_append (by simpa using h)]
  simp

theorem splitAtLast_some {c : Char} {l pre post : List Char}
    (h : splitAtLast c l = some (pre, post)) : l = pre ++ c :: post ∧ c ∉ post := by
  unfold splitAtLast at h
  rcases hbk : breakAtFirst c l.reverse with _ | ⟨rp, rq⟩
  · rw [hbk] at h; simp at h
  · rw [hbk] at h
    simp only [Option.some.injEq, Prod.mk.injEq] at h
    obtain ⟨h1, h2⟩ := h
    obtain ⟨hl, hnot⟩ := breakAtFirst_some hbk
    constructor
    · have hrl := congrArg List.reverse hl
      simp at hrl
      rw [hrl, ← h1, ← h2]
    · rw [← h2]
      simpa using hnot

theorem not_mem_of_splitAtLast_eq_none {c : Char} {l : List Char}
    (h : splitAtLast c l = none) : c ∉ l := by
  unfold splitAtLast at h
  rcases hbk : breakAtFirst c l.reverse with _ | ⟨rp, rq⟩
  · have := not_mem_of_breakAtFirst_eq_none hbk
    simpa using this
  · rw [hbk] at h; simp at h

theorem not_slash_mem_afterLastSlash (l : List Char) : '/' ∉ afterLastSlash l := by
  unfold afterLastSlash
  rcases hs : splitAtLast '/' l with _ | ⟨pre, post⟩
  · exact not_mem_of_splitAtLast_eq_none hs
  · exact (splitAtLast_some hs).2

theorem afterLastSlash_of_no_slash {l : List Char} (h : '/' ∉ l) :
    afterLastSlash l = l := by
  unfold afterLastSlash
  rw [splitAtLast_eq_none h]

theorem afterLastSlash_append {a b : List Char} (h : '/' ∉ b) :
    afterLastSlash (a ++ '/' :: b) = b := by
  unfold afterLastSlash
  rw [splitAtLast_append h]

theorem dropTrailingSlashes_snoc {l : List Char} {x : Char} (hx : x ≠ '/') :
    dropTrailingSlashes (l ++ [x]) = l ++ [x] := by
  unfold dropTrailingSlashes
  rw [List.reverse_append]
  simp [List.dropWhile_cons, hx]

theorem string_toList_ne_nil {s : String} (h : s ≠ "") : s.toList ≠ [] := by
  intro hl
  apply h
  apply String.toList_inj.mp
  simpa using hl

theorem not_slash_mem_parseName (p : String) : '/' ∉ (parseName p).toList := by
  unfold parseName
  split
  · simpa using not_slash_mem_afterLastSlash (dropTrailingSlashes p.toList)
  · rename_i pre post hs
    split
    · simpa using not_slash_mem_afterLastSlash (dropTrailingSlashes p.toList)
    · intro hmem
      obtain ⟨hb, _⟩ := splitAtLast_some hs
      have hnot := not_slash_mem_afterLastSlash (dropTrailingSlashes p.toList)
      rw [hb] at hnot
      apply hnot
      simp only [List.mem_append, List.mem_cons]
      left
      simpa using hmem

theorem posixExtname_eq_wav {p : String} {m : List Char} (hm : m ≠ [])
    (hb : afterLastSlash (dropTrailingSlashes p.toList) = m ++ '.' :: ['w', 'a', 'v']) :
    posixExtname p = ".wav" := by
  unfold posixExtname
  rw [hb, splitAtLast_append (by decide)]
  simp [hm]

theorem toList_append_wav (n : String) :
    (n ++ ".wav").toList = n.toList ++ '.' :: ['w', 'a', 'v'] := by
  simp [String.toList]

theorem posixExtname_pathJoin_wav (d n : String) (hn : n ≠ "")
    (hsl : '/' ∉ n.toList) :
    posixExtname (pathJoin d (n ++ ".wav")) = ".wav" := by
  have hn' : n.toList ≠ [] := string_toList_ne_nil hn
  have hwne : n ++ ".wav" ≠ "" := by
    intro h
    have := congrArg String.toList h
    rw [toList_append_wav] at this
    simp at this
  apply posixExtname_eq_wav hn'
  unfold pathJoin
  by_cases hd : d = ""
  · rw [if_pos hd, toList_append_wav]
    have hshape : n.toList ++ '.' :: ['w', 'a', 'v'] =
        (n.toList ++ ['.', 'w', 'a']) ++ ['v'] := by simp
    rw [hshape, dropTrailingSlashes_snoc (by decide), ← hshape]
    apply afterLastSlash_of_no_slash
    simp only [List.mem_append, List.mem_cons, List.not_mem_nil]
    rintro (hmem | hmem)
    · exact hsl hmem
    · rcases hmem with h1 | h2 | h3 | h4 <;> simp_all
  · rw [if_neg hd, if_neg hwne]
    have ht : (d ++ "/" ++ (n ++ ".wav")).toList =
        d.toList ++ '/' :: (n.toList ++ '.' :: ['w', 'a', 'v']) := by
      simp [String.toList]
    rw [ht]
    have hshape : d.toList ++ '/' :: (n.toList ++ '.' :: ['w', 'a', 'v']) =
        (d.toList ++ '/' :: (n.toList ++ ['.', 'w', 'a'])) ++ ['v'] := by simp
    rw [hshape, dropTrailingSlashes_snoc (by decide), ← hshape]
    apply afterLastSlash_append
    simp only [List.mem_append, List.mem_cons, List.not_mem_nil]
    rintro (hmem | hmem)
    · exact hsl hmem
    · rcases hmem with h1 | h2 | h3 | h4 <;> simp_all

/- ------------------------------------------------------------------ -/
/- Helper lemmas: the handler                                          -/
/- ------------------------------------------------------------------ -/

theorem topTranscript_eq_spec : topTranscript = specTopTranscript := by
  funext r
  rcases r with ⟨alts⟩
  rcases alts with _ | l
  · rfl
  · rcases l with _ | ⟨a, t⟩
    · rfl
    · rcases a with ⟨tr⟩
      rcases tr with _ | s <;> rfl

theorem transcribePipeline_fields (env : TranscribeEnv) (fp wp : String)
    (sr : Nat) (ci : Bool) :
    (transcribePipeline env fp wp sr ci).convertInvoked = ci ∧
    (transcribePipeline env fp wp sr ci).uploadInvoked = true ∧
    (transcribePipeline env fp wp sr ci).uploadPath = some wp ∧
    (transcribePipeline env fp wp sr ci).uploadKey = some (posixBasename wp) ∧
    ((transcribePipeline env fp wp sr ci).recognizeInvoked = true →
      (transcribePipeline env fp wp sr ci).recognizeSampleRate = some sr) := by
  unfold transcribePipeline
  cases hu : env.uploadOutcome with
  | failed => simp
  | ok v =>
      cases hr : env.recognizeOutcome with
      | failed => simp
      | ok resp =>
          cases hd : env.remoteDeleteOutcome with
          | failed => simp
          | ok u => simp

theorem transcribeHandler_convert_ok {f : UploadedFile} {env : TranscribeEnv}
    (hp : f.path ≠ "") (hn : f.originalname ≠ "")
    (hc : env.convertOutcome = ExtCall.ok ()) :
    transcribeHandler { file := some f } env =
      if strToLower (posixExtname f.originalname) = ".m4a" then
        transcribePipeline env f.path (convertM4aToWav f.path).1
          (convertM4aToWav f.path).2 true
      else
        transcribePipeline env f.path f.path 16000 false := by
  show (if f.path = "" ∨ f.originalname = "" then noFileTrace
    else if strToLower (posixExtname f.originalname) = ".m4a" then
      match env.convertOutcome with
      | ExtCall.failed =>
          { convertInvoked := true, uploadInvoked := false, uploadPath := none,
            uploadKey := none, recognizeInvoked := false, recognizeUri := none,
            recognizeSampleRate := none, localUnlinks := [f.path],
            unlinkErrorLogs := unlinkLog env f.path, remoteDeleteInvoked := false,
            response := { status := 500,
                          body := TranscribeBody.plain "Could not convert m4a to wav" } }
      | ExtCall.ok _ =>
          transcribePipeline env f.path (convertM4aToWav f.path).1
            (convertM4aToWav f.path).2 true
    else transcribePipeline env f.path f.path 16000 false) = _
  rw [if_neg (by simp [hp, hn]), hc]

theorem transcribeHandler_m4a_convert_failed {f : UploadedFile} {env : TranscribeEnv}
    (hp : f.path ≠ "") (hn : f.originalname ≠ "")
    (hm : strToLower (posixExtname f.originalname) = ".m4a")
    (hc : env.convertOutcome = ExtCall.failed) :
    transcribeHandler { file := some f } env =
      { convertInvoked := true, uploadInvoked := false, uploadPath := none,
        uploadKey := none, recognizeInvoked := false, recognizeUri := none,
        recognizeSampleRate := none, localUnlinks := [f.path],
        unlinkErrorLogs := unlinkLog env f.path, remoteDeleteInvoked := false,
        response := { status := 500,
                      body := TranscribeBody.plain "Could not convert m4a to wav" } } := by
  show (if f.path = "" ∨ f.originalname = "" then noFileTrace
    else if strToLower (posixExtname f.originalname) = ".m4a" then
      match env.convertOutcome with
      | ExtCall.failed =>
          { convertInvoked := true, uploadInvoked := false, uploadPath := none,
            uploadKey := none, recognizeInvoked := false, recognizeUri := none,
            recognizeSampleRate := none, localUnlinks := [f.path],
            unlinkErrorLogs := unlinkLog env f.path, remoteDeleteInvoked := false,
            response := { status := 500,
                          body := TranscribeBody.plain "Could not convert m4a to wav" } }
      | ExtCall.ok _ =>
          transcribePipeline env f.path (convertM4aToWav f.path).1
            (convertM4aToWav f.path).2 true
    else transcribePipeline env f.path f.path 16000 false) = _
  rw [if_neg (by simp [hp, hn]), if_pos hm, hc]

theorem transcribeHandler_non_m4a {f : UploadedFile} {env : TranscribeEnv}
    (hp : f.path ≠ "") (hn : f.originalname ≠ "")
    (hm : strToLower (posixExtname f.originalname) ≠ ".m4a") :
    transcribeHandler { file := some f } env =
      transcribePipeline env f.path f.path 16000 false := by
  show (if f.path = "" ∨ f.originalname = "" then noFileTrace
    else if strToLower (posixExtname f.originalname) = ".m4a" then
      match env.convertOutcome with
      | ExtCall.failed =>
          { convertInvoked := true, uploadInvoked := false, uploadPath := none,
            uploadKey := none, recognizeInvoked := false, recognizeUri := none,
            recognizeSampleRate := none, localUnlinks := [f.path],
            unlinkErrorLogs := unlinkLog env f.path, remoteDeleteInvoked := false,
            response := { status := 500,
                          body := TranscribeBody.plain "Could not convert m4a to wav" } }
      | ExtCall.ok _ =>
          transcribePipeline env f.path (convertM4aToWav f.path).1
            (convertM4aToWav f.path).2 true
    else transcribePipeline env f.path f.path 16000 false) = _
  rw [if_neg (by simp [hp, hn]), if_neg hm]

/- ------------------------------------------------------------------ -/
/- Claims                                                              -/
/- ------------------------------------------------------------------ -/

/-- Claim C1: transcript extraction is a pure function of the recognition
response — each result contributes the transcript of its rank-0 alternative
if present, else the empty string; per-result strings are joined with a
single newline; an empty or absent results list gives the empty transcript.
On the three-result example the output is the string a, newline, newline, c,
and on zero results the output is empty. -/
theorem C1_transcript_extraction :
    (∀ resp : RecognizeResponse, extractTranscription resp = specTranscript resp) ∧
    extractTranscription { results := some [
        { alternatives := some [{ transcript := some "a" }] },
        { alternatives := some [] },
        { alternatives := some [{ transcript := some "c" },
                                { transcript := some "ignored" }] }] } = "a\n\nc" ∧
    extractTranscription { results := some [] } = "" ∧
    extractTranscription { results := none } = "" := by
  refine ⟨fun resp => ?_, by decide, rfl, rfl⟩
  rcases resp with ⟨res⟩
  rcases res with _ | rs
  · rfl
  · unfold extractTranscription specTranscript
    rw [topTranscript_eq_spec]
    simp

/-- Counterexample to claim C2 as stated: a run that reaches a successful
recognition call but whose remote object deletion rejects is answered
500 "Transcription failed.", not 200 with the transcript. -/
theorem C2_remote_delete_counterexample :
    (transcribeHandler { file := some fileWavW } envRemoteDelFailW).recognizeInvoked
      = true ∧
    envRemoteDelFailW.recognizeOutcome = ExtCall.ok respW ∧
    envRemoteDelFailW.remoteDeleteOutcome = ExtCall.failed ∧
    (transcribeHandler { file := some fileWavW } envRemoteDelFailW).response.status
      ≠ 200 ∧
    (transcribeHandler { file := some fileWavW } envRemoteDelFailW).response =
      { status := 500, body := TranscribeBody.plain "Transcription failed." } :=
  ⟨rfl, rfl, rfl, by decide, rfl⟩

/-- Claim C2 (amended): for a pipeline that reaches a successful recognition
call, failures of the local file deletions never change the response — the
environment's unlink-failure pattern is arbitrary here — and when the remote
object deletion also succeeds the response is 200 with the full transcript;
a remote object deletion failure, however, is caught by the outer handler
and fails the request with 500 "Transcription failed.". -/
theorem C2_cleanup_failures (f : UploadedFile) (env : TranscribeEnv)
    (resp : RecognizeResponse)
    (hp : f.path ≠ "") (hn : f.originalname ≠ "")
    (hc : env.convertOutcome = ExtCall.ok ())
    (hu : env.uploadOutcome = ExtCall.ok ())
    (hr : env.recognizeOutcome = ExtCall.ok resp) :
    (env.remoteDeleteOutcome = ExtCall.ok () →
       (transcribeHandler { file := some f } env).response =
         { status := 200, body := TranscribeBody.jsonText (extractTranscription resp) }) ∧
    (env.remoteDeleteOutcome = ExtCall.failed →
       (transcribeHandler { file := some f } env).response =
         { status := 500, body := TranscribeBody.plain "Transcription failed." }) := by
  rw [transcribeHandler_convert_ok hp hn hc]
  constructor <;> intro hd <;>
    split <;> (unfold transcribePipeline; rw [hu, hr, hd])

/-- Witness for the amended claim C2 at a concrete run in which every local
unlink callback fails and the remote delete succeeds. -/
theorem C2_cleanup_failures_witness :
    (transcribeHandler { file := some fileWavW } envAllOkW).response =
      { status := 200, body := TranscribeBody.jsonText (extractTranscription respW) } :=
  (C2_cleanup_failures fileWavW envAllOkW respW (by decide) (by decide)
    rfl rfl rfl).1 rfl

/-- Claim C3: when the storage upload or the recognition call rejects, the
response is 500 with plain body "Transcription failed." and no local file
deletion happens in that branch. -/
theorem C3_upload_or_recognize_failure (f : UploadedFile) (env : TranscribeEnv)
    (hp : f.path ≠ "") (hn : f.originalname ≠ "")
    (hc : env.convertOutcome = ExtCall.ok ())
    (hf : env.uploadOutcome = ExtCall.failed ∨
          (env.uploadOutcome = ExtCall.ok () ∧
           env.recognizeOutcome = ExtCall.failed)) :
    (transcribeHandler { file := some f } env).response.status = 500 ∧
    (transcribeHandler { file := some f } env).response.body =
      TranscribeBody.plain "Transcription failed." ∧
    (transcribeHandler { file := some f } env).localUnlinks = [] := by
  rw [transcribeHandler_convert_ok hp hn hc]
  rcases hf with hf | ⟨hu, hr⟩
  · split <;> (unfold transcribePipeline; rw [hf]; exact ⟨rfl, rfl, rfl⟩)
  · split <;> (unfold transcribePipeline; rw [hu, hr]; exact ⟨rfl, rfl, rfl⟩)

/-- Witness for claim C3 at a concrete run whose storage upload rejects. -/
theorem C3_upload_or_recognize_failure_witness :
    (transcribeHandler { file := some fileWavW } envUploadFailW).response.status = 500 ∧
    (transcribeHandler { file := some fileWavW } envUploadFailW).response.body =
      TranscribeBody.plain "Transcription failed." ∧
    (transcribeHandler { file := some fileWavW } envUploadFailW).localUnlinks = [] :=
  C3_upload_or_recognize_failure fileWavW envUploadFailW (by decide) (by decide)
    rfl (Or.inl rfl)

/-- Claim C4: a /transcribe request with no uploaded file is answered 400
with plain body "No audio file uploaded", and no transcoding, upload,
recognition or cleanup stage runs. -/
theorem C4_no_file_400 (env : TranscribeEnv) :
    (transcribeHandler { file := none } env).response.status = 400 ∧
    (transcribeHandler { file := none } env).response.body =
      TranscribeBody.plain "No audio file uploaded" ∧
    (transcribeHandler { file := none } env).convertInvoked = false ∧
    (transcribeHandler { file := none } env).uploadInvoked = false ∧
    (transcribeHandler { file := none } env).recognizeInvoked = false ∧
    (transcribeHandler { file := none } env).localUnlinks = [] ∧
    (transcribeHandler { file := none } env).remoteDeleteInvoked = false :=
  ⟨rfl, rfl, rfl, rfl, rfl, rfl, rfl⟩

/-- Witness for claim C4 at a concrete environment. -/
theorem C4_no_file_400_witness :
    (transcribeHandler { file := none } envAllOkW).response.status = 400 ∧
    (transcribeHandler { file := none } envAllOkW).response.body =
      TranscribeBody.plain "No audio file uploaded" ∧
    (transcribeHandler { file := none } envAllOkW).convertInvoked = false ∧
    (transcribeHandler { file := none } envAllOkW).uploadInvoked = false ∧
    (transcribeHandler { file := none } envAllOkW).recognizeInvoked = false ∧
    (transcribeHandler { file := none } envAllOkW).localUnlinks = [] ∧
    (transcribeHandler { file := none } envAllOkW).remoteDeleteInvoked = false :=
  C4_no_file_400 envAllOkW

/-- Claim C5: for an .m4a upload whose transcoding rejects, the original
local file is unlinked, the response is 500 with plain body
"Could not convert m4a to wav", and neither the storage upload nor the
recognition call is made. -/
theorem C5_m4a_convert_failure (f : UploadedFile) (env : TranscribeEnv)
    (hp : f.path ≠ "") (hn : f.originalname ≠ "")
    (hm : strToLower (posixExtname f.originalname) = ".m4a")
    (hc : env.convertOutcome = ExtCall.failed) :
    (transcribeHandler { file := some f } env).localUnlinks = [f.path] ∧
    (transcribeHandler { file := some f } env).response.status = 500 ∧
    (transcribeHandler { file := some f } env).response.body =
      TranscribeBody.plain "Could not convert m4a to wav" ∧
    (transcribeHandler { file := some f } env).uploadInvoked = false ∧
    (transcribeHandler { file := some f } env).recognizeInvoked = false := by
  rw [transcribeHandler_m4a_convert_failed hp hn hm hc]
  exact ⟨rfl, rfl, rfl, rfl, rfl⟩

/-- Witness for claim C5 at a concrete upper-case .M4A upload. -/
theorem C5_m4a_convert_failure_witness :
    (transcribeHandler { file := some fileM4aW } envConvFailW).localUnlinks
      = [fileM4aW.path] ∧
    (transcribeHandler { file := some fileM4aW } envConvFailW).response.status = 500 ∧
    (transcribeHandler { file := some fileM4aW } envConvFailW).response.body =
      TranscribeBody.plain "Could not convert m4a to wav" ∧
    (transcribeHandler { file := some fileM4aW } envConvFailW).uploadInvoked = false ∧
    (transcribeHandler { file := some fileM4aW } envConvFailW).recognizeInvoked
      = false :=
  C5_m4a_convert_failure fileM4aW envConvFailW (by decide) (by decide)
    (by decide) rfl

/-- Claim C6: for an .m4a upload (extension compared lower-cased) whose
conversion succeeds, the canonical file handed to storage is the uploaded
path with its extension replaced by .wav in the same directory, that path
has extension .wav, and whenever the recognition call is made its
configured sample rate is 16000. -/
theorem C6_m4a_canonical_wav (f : UploadedFile) (env : TranscribeEnv)
    (hp : f.path ≠ "") (hn : f.originalname ≠ "")
    (hm : strToLower (posixExtname f.originalname) = ".m4a")
    (hc : env.convertOutcome = ExtCall.ok ())
    (hname : parseName f.path ≠ "") :
    (transcribeHandler { file := some f } env).uploadPath =
      some (pathJoin (parseDir f.path) (parseName f.path ++ ".wav")) ∧
    posixExtname (pathJoin (parseDir f.path) (parseName f.path ++ ".wav")) = ".wav" ∧
    ((transcribeHandler { file := some f } env).recognizeInvoked = true →
      (transcribeHandler { file := some f } env).recognizeSampleRate = some 16000) := by
  rw [transcribeHandler_convert_ok hp hn hc, if_pos hm]
  obtain ⟨_, _, hup, _, hsr⟩ := transcribePipeline_fields env f.path
    (convertM4aToWav f.path).1 (convertM4aToWav f.path).2 true
  exact ⟨hup, posixExtname_pathJoin_wav _ _ hname (not_slash_mem_parseName f.path), hsr⟩

/-- Witness for claim C6 at a concrete upper-case .M4A upload. -/
theorem C6_m4a_canonical_wav_witness :
    (transcribeHandler { file := some fileM4aW } envAllOkW).uploadPath =
      some (pathJoin (parseDir fileM4aW.path) (parseName fileM4aW.path ++ ".wav")) ∧
    posixExtname (pathJoin (parseDir fileM4aW.path)
      (parseName fileM4aW.path ++ ".wav")) = ".wav" ∧
    ((transcribeHandler { file := some fileM4aW } envAllOkW).recognizeInvoked = true →
      (transcribeHandler { file := some fileM4aW } envAllOkW).recognizeSampleRate
        = some 16000) :=
  C6_m4a_canonical_wav fileM4aW envAllOkW (by decide) (by decide) (by decide)
    rfl (by decide)

/-- Claim C7: for a non-m4a upload no transcoding subprocess is invoked,
the path handed to storage is the unchanged uploaded path, the remote
object key is the uploaded file's generated local base name, and whenever
the recognition call is made its configured sample rate is the default
16000. -/
theorem C7_non_m4a_passthrough (f : UploadedFile) (env : TranscribeEnv)
    (hp : f.path ≠ "") (hn : f.originalname ≠ "")
    (hm : strToLower (posixExtname f.originalname) ≠ ".m4a") :
    (transcribeHandler { file := some f } env).convertInvoked = false ∧
    (transcribeHandler { file := some f } env).uploadPath = some f.path ∧
    (transcribeHandler { file := some f } env).uploadKey =
      some (posixBasename f.path) ∧
    ((transcribeHandler { file := some f } env).recognizeInvoked = true →
      (transcribeHandler { file := some f } env).recognizeSampleRate = some 16000) := by
  rw [transcribeHandler_non_m4a hp hn hm]
  obtain ⟨hci, _, hup, hkey, hsr⟩ := transcribePipeline_fields env f.path f.path
    16000 false
  exact ⟨hci, hup, hkey, hsr⟩

/-- Witness for claim C7 at a concrete non-m4a upload. -/
theorem C7_non_m4a_passthrough_witness :
    (transcribeHandler { file := some fileWavW } envAllOkW).convertInvoked = false ∧
    (transcribeHandler { file := some fileWavW } envAllOkW).uploadPath =
      some fileWavW.path ∧
    (transcribeHandler { file := some fileWavW } envAllOkW).uploadKey =
      some (posixBasename fileWavW.path) ∧
    ((transcribeHandler { file := some fileWavW } envAllOkW).recognizeInvoked = true →
      (transcribeHandler { file := some fileWavW } envAllOkW).recognizeSampleRate
        = some 16000) :=
  C7_non_m4a_passthrough fileWavW envAllOkW (by decide) (by decide) (by decide)

/-- Claim C8: a /speak request whose body has a missing text field
(destructuring yields undefined) or an empty-string text is answered 400
with the JSON error "Missing "text" in request body", and the synthesis
service is never invoked. -/
theorem C8_speak_missing_or_empty_text (env : SpeakEnv) (t : JsValue)
    (h : t = JsValue.undefined ∨ t = JsValue.string "") :
    (speakHandler t env).response.status = 400 ∧
    (speakHandler t env).response.body =
      SpeakBody.jsonError "Missing \"text\" in request body" ∧
    (speakHandler t env).synthInvoked = false := by
  rcases h with h | h <;> subst h <;> exact ⟨rfl, rfl, rfl⟩

/-- Witness for claim C8 with an absent text field. -/
theorem C8_speak_missing_or_empty_text_witness :
    (speakHandler JsValue.undefined spEnvOkW).response.status = 400 ∧
    (speakHandler JsValue.undefined spEnvOkW).response.body =
      SpeakBody.jsonError "Missing \"text\" in request body" ∧
    (speakHandler JsValue.undefined spEnvOkW).synthInvoked = false :=
  C8_speak_missing_or_empty_text spEnvOkW JsValue.undefined (Or.inl rfl)

/-- Claim C9: a /speak request with a non-empty text string, when the
synthesis call resolves with non-empty audio bytes, is answered 200 with
Content-Type audio/mpeg, Content-Disposition attachment with filename
speech.mp3, and a body equal to the returned bytes exactly. -/
theorem C9_speak_success (s : String) (audio : List Nat) (env : SpeakEnv)
    (hs : s ≠ "") (_ha : audio ≠ [])
    (h : env.synthOutcome = ExtCall.ok (some audio)) :
    (speakHandler (JsValue.string s) env).response =
      { status := 200, contentType := some "audio/mpeg",
        contentDisposition := some "attachment; filename=\"speech.mp3\"",
        body := SpeakBody.bytes audio } := by
  unfold speakHandler
  rw [if_neg (by simp [jsTruthy, hs]), h]

/-- Witness for claim C9 at concrete text and audio bytes. -/
theorem C9_speak_success_witness :
    (speakHandler (JsValue.string "hi") spEnvOkW).response =
      { status := 200, contentType := some "audio/mpeg",
        contentDisposition := some "attachment; filename=\"speech.mp3\"",
        body := SpeakBody.bytes [7, 8, 9] } :=
  C9_speak_success "hi" [7, 8, 9] spEnvOkW (by decide) (by decide) rfl

/-- Claim C10: the /speak rejection predicate is JavaScript falsiness of
the body's text value — the synthesis call is made exactly when the value
is truthy; every falsy value (undefined, null, false, the number 0, the
empty string) gets the same 400 error with no synthesis call, and every
truthy value of any type is forwarded to the synthesis service unchanged. -/
theorem C10_speak_falsiness_gate (t : JsValue) (env : SpeakEnv) :
    ((speakHandler t env).synthInvoked = jsTruthy t) ∧
    (jsTruthy t = false →
       (speakHandler t env).response.status = 400 ∧
       (speakHandler t env).response.body =
         SpeakBody.jsonError "Missing \"text\" in request body" ∧
       (speakHandler t env).synthText = none) ∧
    (jsTruthy t = true → (speakHandler t env).synthText = some t) := by
  cases ht : jsTruthy t with
  | false =>
      refine ⟨?_, fun _ => ?_, fun hcon => by simp [ht] at hcon⟩
      · unfold speakHandler
        rw [if_pos ht]
      · unfold speakHandler
        rw [if_pos ht]
        exact ⟨rfl, rfl, rfl⟩
  | true =>
      have hne : ¬ jsTruthy t = false := by simp [ht]
      refine ⟨?_, fun hcon => by simp [ht] at hcon, fun _ => ?_⟩ <;>
        (unfold speakHandler; rw [if_neg hne]) <;>
        cases ho : env.synthOutcome with
        | failed => simp [ht]
        | ok a => cases a <;> simp [ht]

/-- Witness for claim C10 at the falsy number 0 and at a truthy boolean. -/
theorem C10_speak_falsiness_gate_witness :
    (((speakHandler (JsValue.number 0) spEnvOkW).synthInvoked
        = jsTruthy (JsValue.number 0)) ∧
     (jsTruthy (JsValue.number 0) = false →
        (speakHandler (JsValue.number 0) spEnvOkW).response.status = 400 ∧
        (speakHandler (JsValue.number 0) spEnvOkW).response.body =
          SpeakBody.jsonError "Missing \"text\" in request body" ∧
        (speakHandler (JsValue.number 0) spEnvOkW).synthText = none) ∧
     (jsTruthy (JsValue.number 0) = true →
        (speakHandler (JsValue.number 0) spEnvOkW).synthText =
          some (JsValue.number 0))) ∧
    (((speakHandler (JsValue.boolean true) spEnvOkW).synthInvoked
        = jsTruthy (JsValue.boolean true)) ∧
     (jsTruthy (JsValue.boolean true) = false →
        (speakHandler (JsValue.boolean true) spEnvOkW).response.status = 400 ∧
        (speakHandler (JsValue.boolean true) spEnvOkW).response.body =
          SpeakBody.jsonError "Missing \"text\" in request body" ∧
        (speakHandler (JsValue.boolean true) spEnvOkW).synthText = none) ∧
     (jsTruthy (JsValue.boolean true) = true →
        (speakHandler (JsValue.boolean true) spEnvOkW).synthText =
          some (JsValue.boolean true))) :=
  ⟨C10_speak_falsiness_gate (JsValue.number 0) spEnvOkW,
   C10_speak_falsiness_gate (JsValue.boolean true) spEnvOkW⟩

end SpeechService
